import Mathlib

/-!
Verification development for the Web-Scraper repository (src/scraper.py).

The Python code is shallowly embedded in Lean:

* strings are Lean `String`s, with character-level operations defined on
  `List Char` so that everything reduces in the kernel;
* Python `float` values produced by the cleaning pipeline are modelled by
  exact rationals (`ℚ`); the cleaning rules only parse decimal literals and
  never compute with them, so the rational model is faithful up to binary
  rounding (which no claim observes); the base `Value` layer covers the
  finite-or-ValueError cases, and the refined `ValueB` layer additionally
  carries `inf`/`nan` results and the uncaught OverflowError of
  `int(float(...))` on an infinity;
* likewise a base `Elem` layer types attribute values as strings
  (BeautifulSoup's representation of every single-valued attribute), and a
  refined `ElemB` layer carries the list representation of multi-valued
  attributes and the AttributeError of `.strip()` on a list;
* the HTTP session and BeautifulSoup are the external collaborators of the
  program: a page is modelled by the answers it gives to the `select` /
  `select_one` / `get_text` / `get` calls the scraper performs, and the
  network is a function from attempt (resp. page) number to an optional
  page;
* `urllib.parse.urlsplit` / `urljoin`, used by the scraper for URL
  validation and resolution, are modelled after the CPython implementation,
  with `none` standing for a raised `ValueError`.
-/

/-- A scraped field value: Python `str`, `float` (modelled as an exact
rational), `int`, or `None`. -/
inductive Value where
  | str : String → Value
  | num : ℚ → Value
  | int : ℤ → Value
  | null : Value
deriving DecidableEq

/-- One extracted record: a Python dict as an insertion-ordered
association list. -/
abbrev Record := List (String × Value)

/-! ### Character-list helpers (Python string primitives) -/

/-- The whitespace characters stripped by Python `str.strip()` /
`str.split()` (ASCII subset). -/
def isPySpace (c : Char) : Bool :=
  c = ' ' ∨ c = '\t' ∨ c = '\n' ∨ c = '\r' ∨ c = '\x0b' ∨ c = '\x0c'

/-- Drop matching characters from the end of a list. -/
def listDropWhileEnd (p : Char → Bool) (l : List Char) : List Char :=
  (l.reverse.dropWhile p).reverse

/-- Python `s.strip()` (both ends, default whitespace). -/
def pyStrip (s : String) : String :=
  String.mk (listDropWhileEnd isPySpace (s.toList.dropWhile isPySpace))

/-- ASCII lowercasing of one character (Python `str.lower` restricted to
the ASCII scheme characters it is applied to here). -/
def charLower (c : Char) : Char :=
  if 'A' ≤ c ∧ c ≤ 'Z' then Char.ofNat (c.toNat + 32) else c

/-- Split at the first character satisfying `p`: `some (before, after)`,
or `none` when no such character occurs. -/
def splitFirst (p : Char → Bool) : List Char → Option (List Char × List Char)
  | [] => none
  | c :: r =>
    if p c then some ([], r)
    else (splitFirst p r).map (fun x => (c :: x.1, x.2))

/-- Python `s.split(sep)` for a one-character separator (keeps empty
pieces; the empty string yields `[""]`). -/
def splitOnChar (sep : Char) : List Char → List (List Char)
  | [] => [[]]
  | c :: r =>
    match splitOnChar sep r with
    | [] => [[]]
    | g :: gs => if c = sep then [] :: g :: gs else (c :: g) :: gs

/-- Python `sep.join(pieces)` for a one-character separator. -/
def joinChar (sep : Char) : List (List Char) → List Char
  | [] => []
  | [x] => x
  | x :: y :: r => x ++ sep :: joinChar sep (y :: r)

/-! ### Model of urllib.parse (urlsplit / urlunsplit / urljoin)

`scraper.py` calls `urlparse` (for scheme and netloc only) and `urljoin`.
Both are modelled after the CPython implementation; `none` models a raised
`ValueError` (mismatched IPv6 brackets in the netloc — the finer
bracketed-host validation of newer CPython versions is not modelled, and
`_checknetloc`'s NFKC check never fires on the ASCII URLs considered
here). -/

/-- The five components returned by `urlsplit`. -/
structure SplitResult where
  scheme : List Char
  netloc : List Char
  path : List Char
  query : List Char
  fragment : List Char
deriving DecidableEq

/-- A character allowed inside a URL scheme (CPython `scheme_chars`). -/
def schemeChar (c : Char) : Bool :=
  c.isAlpha ∨ c.isDigit ∨ c = '+' ∨ c = '-' ∨ c = '.'

/-- CPython `urlsplit` preprocessing: strip C0 controls and spaces from
both ends, remove tab/CR/LF everywhere. -/
def urlPreprocess (l : List Char) : List Char :=
  (((l.dropWhile (fun c => c.toNat ≤ 32)).reverse.dropWhile
      (fun c => c.toNat ≤ 32)).reverse).filter
    (fun c => ¬ (c = '\t' ∨ c = '\r' ∨ c = '\n'))

/-- Split the fragment (first, at the first `#`) and then the query (at
the first `?` of the remainder), as `urlsplit` does with
`allow_fragments=True`. -/
def splitQF (scheme netloc rest : List Char) : SplitResult :=
  let pf := (splitFirst (fun c => c = '#') rest).getD (rest, [])
  let pq := (splitFirst (fun c => c = '?') pf.1).getD (pf.1, [])
  ⟨scheme, netloc, pq.1, pq.2, pf.2⟩

/-- Model of CPython `urllib.parse.urlsplit url default_scheme` with
`allow_fragments=True`; `none` models a raised `ValueError`. -/
def urlsplitModel (url0 : String) (default_scheme : List Char) : Option SplitResult :=
  let l := urlPreprocess url0.toList
  let sr : List Char × List Char :=
    match splitFirst (fun c => c = ':') l with
    | some x =>
      if x.1 ≠ [] ∧ (x.1.head?.getD ' ').isAlpha ∧ x.1.all schemeChar then
        (x.1.map charLower, x.2)
      else (default_scheme, l)
    | none => (default_scheme, l)
  match sr.2 with
  | '/' :: '/' :: r =>
    let netloc := r.takeWhile (fun c => ¬ (c = '/' ∨ c = '?' ∨ c = '#'))
    let rest2 := r.dropWhile (fun c => ¬ (c = '/' ∨ c = '?' ∨ c = '#'))
    if (netloc.contains '[' ∧ ¬ netloc.contains ']') ∨
        (netloc.contains ']' ∧ ¬ netloc.contains '[') then none
    else some (splitQF sr.1 netloc rest2)
  | other => some (splitQF sr.1 [] other)

/-- Model of CPython `urllib.parse.urlunsplit`. -/
def urlunsplitModel (r : SplitResult) : List Char :=
  let url := r.path
  let url :=
    if r.netloc ≠ [] ∨ (url ≠ [] ∧ url.take 2 = ['/', '/']) then
      let url2 := if url ≠ [] ∧ url.head?.getD ' ' ≠ '/' then '/' :: url else url
      '/' :: '/' :: (r.netloc ++ url2)
    else url
  let url := if r.scheme ≠ [] then r.scheme ++ ':' :: url else url
  let url := if r.query ≠ [] then url ++ '?' :: r.query else url
  if r.fragment ≠ [] then url ++ '#' :: r.fragment else url

/-- CPython `uses_relative`. -/
def uses_relative : List String :=
  ["", "ftp", "http", "gopher", "nntp", "imap", "wais", "file", "https",
   "shttp", "mms", "prospero", "rtsp", "rtspu", "sftp", "svn", "svn+ssh",
   "ws", "wss"]

/-- CPython `uses_netloc`. -/
def uses_netloc : List String :=
  ["", "ftp", "http", "gopher", "nntp", "telnet", "imap", "wais", "file",
   "mms", "https", "shttp", "snews", "prospero", "rtsp", "rtspu", "rsync",
   "svn", "svn+ssh", "sftp", "nfs", "git", "git+ssh", "ws", "wss"]

/-- CPython `uses_params`. -/
def uses_params : List String :=
  ["", "ftp", "hdl", "prospero", "http", "imap", "https", "shttp", "rtsp",
   "rtspu", "sip", "sips", "mms", "sftp", "tel"]

/-- CPython `_splitparams`: split the `;params` suffix off the last path
segment (off the whole path when it has no `/`); no `;` in the last
segment means no params. -/
def splitParams (l : List Char) : List Char × List Char :=
  if l.contains '/' then
    let revl := l.reverse
    let lastSeg := (revl.takeWhile (fun c => c ≠ '/')).reverse
    let pre := (revl.dropWhile (fun c => c ≠ '/')).reverse
    match splitFirst (fun c => c = ';') lastSeg with
    | none => (l, [])
    | some x => (pre ++ x.1, x.2)
  else
    match splitFirst (fun c => c = ';') l with
    | none => (l, [])
    | some x => (x.1, x.2)

/-- CPython `urlparse`'s params step: params are split off only for
schemes in `uses_params` and only when the path contains a `;`. -/
def splitParamsIf (scheme p5 : List Char) : List Char × List Char :=
  if String.mk scheme ∈ uses_params ∧ p5.contains ';' then splitParams p5
  else (p5, [])

/-- CPython `urlunparse`'s recombination of path and params (the rest is
`urlunsplit`). -/
def joinParams (p ps : List Char) : List Char :=
  if ps ≠ [] then p ++ ';' :: ps else p

/-- The dot-segment resolution loop of CPython `urljoin`: `..` pops
(ignoring underflow), `.` is skipped, anything else is appended. -/
def resolveSegs (acc : List (List Char)) : List (List Char) → List (List Char)
  | [] => acc
  | s :: r =>
    if s = ['.', '.'] then resolveSegs acc.dropLast r
    else if s = ['.'] then resolveSegs acc r
    else resolveSegs (acc ++ [s]) r

/-- CPython `segments[1:-1] = filter(None, segments[1:-1])`: drop empty
segments strictly between the first and the last. -/
def filterMiddle (l : List (List Char)) : List (List Char) :=
  match l with
  | [] => []
  | [x] => [x]
  | x :: xs => x :: ((xs.dropLast.filter (fun s => s ≠ [])) ++ xs.getLast?.toList)

/-- Model of CPython `urllib.parse.urljoin` (the `urlparse`-based
algorithm: both URLs are split into scheme, netloc, path, params, query
and fragment; an empty path with empty params keeps the base path and
params, and the base query when the reference has none; otherwise the
paths are merged with dot-segment resolution and the reference's params
are kept).  `none` models a raised `ValueError`. -/
def urljoinModel (base url : String) : Option String :=
  if base = "" then some url
  else if url = "" then some base
  else
    match urlsplitModel base [] with
    | none => none
    | some b =>
      match urlsplitModel url b.scheme with
      | none => none
      | some u =>
        let bpp := splitParamsIf b.scheme b.path
        let upp := splitParamsIf u.scheme u.path
        if String.mk u.scheme ≠ String.mk b.scheme ∨
            String.mk u.scheme ∉ uses_relative then
          some url
        else if String.mk u.scheme ∈ uses_netloc ∧ u.netloc ≠ [] then
          some (String.mk (urlunsplitModel u))
        else
          let netloc := if String.mk u.scheme ∈ uses_netloc then b.netloc else u.netloc
          if upp.1 = [] ∧ upp.2 = [] then
            let q := if u.query = [] then b.query else u.query
            some (String.mk (urlunsplitModel ⟨u.scheme, netloc, b.path, q, u.fragment⟩))
          else
            let base_parts := splitOnChar '/' bpp.1
            let base_parts :=
              if base_parts.getLast?.getD [] ≠ [] then base_parts.dropLast else base_parts
            let segments :=
              if upp.1.head?.getD ' ' = '/' then splitOnChar '/' upp.1
              else filterMiddle (base_parts ++ splitOnChar '/' upp.1)
            let resolved := resolveSegs [] segments
            let resolved :=
              if segments.getLast?.getD [] = ['.'] ∨ segments.getLast?.getD [] = ['.', '.'] then
                resolved ++ [[]]
              else resolved
            let p := joinChar '/' resolved
            let p := if p = [] then ['/'] else p
            some (String.mk (urlunsplitModel
              ⟨u.scheme, netloc, joinParams p upp.2, u.query, u.fragment⟩))

/-! ### URL Resolver (scraper.py lines 60-101) -/

/-- `WebScraper.is_valid_url`: the `urlparse` call succeeds, scheme and
netloc are non-empty, and the scheme is http or https; any parse error
yields `false`. -/
def is_valid_url (url : String) : Bool :=
  match urlsplitModel url [] with
  | none => false
  | some p =>
    if p.scheme ≠ [] ∧ p.netloc ≠ [] then
      String.mk p.scheme == "http" || String.mk p.scheme == "https"
    else false

/-- `WebScraper.make_absolute_url`: empty relative URL yields `""`; an
already-valid URL is returned unchanged; otherwise `urljoin`, with a
raised resolution error converted to `""`. -/
def make_absolute_url (base_url relative_url : String) : String :=
  if relative_url = "" then ""
  else if is_valid_url relative_url then relative_url
  else
    match urljoinModel base_url relative_url with
    | some s => s
    | none => ""

/-! ### Page model (the BeautifulSoup collaborator)

A parsed page is modelled by the answers it gives to the calls the scraper
makes: `soup.select` (item containers, by selector), `soup.select_one`
(page-level next-link lookup, only its truthiness is used), and, inside a
container, `select_one` plus `get_text` / `get` on the found element. -/

/-- An element as consumed by the extractor: its text content and its
attribute dictionary. -/
structure Elem where
  text : String
  attrs : List (String × String)
deriving DecidableEq

/-- Python `element.get(a, d)`. -/
def Elem.get (e : Elem) (a d : String) : String :=
  ((e.attrs.find? (fun p => p.1 == a)).map (fun p => p.2)).getD d

/-- One item container: the first match (`select_one`) for each selector
inside its subtree, as an association list; an absent selector means no
match. -/
structure Item where
  found : List (String × Elem)
deriving DecidableEq

/-- `item.select_one(sel)` within the container's subtree. -/
def Item.selectOne (it : Item) (sel : String) : Option Elem :=
  (it.found.find? (fun p => p.1 == sel)).map (fun p => p.2)

/-- A parsed page: the container lists returned by `soup.select`, and the
page-level selectors for which `soup.select_one` finds an element. -/
structure Soup where
  selectResults : List (String × List Item)
  selectOneHits : List String
deriving DecidableEq

/-- `soup.select(sel)` (empty when the selector matches nothing). -/
def Soup.select (s : Soup) (sel : String) : List Item :=
  ((s.selectResults.find? (fun p => p.1 == sel)).map (fun p => p.2)).getD []

/-- Truthiness of `soup.select_one(sel)`. -/
def Soup.selectOneSome (s : Soup) (sel : String) : Bool :=
  s.selectOneHits.contains sel

/-! ### Fetch Client (scraper.py lines 103-143)

`net attempt` models the outcome of the `attempt`-th `session.get` against
the target: `some soup` for a 2xx response parsed by BeautifulSoup, `none`
for a `RequestException` (timeout, connection error, non-2xx status).
Delays (`time.sleep`) only consume wall-clock time and are not modelled. -/

/-- The retry for-loop of `get_page_content`: `attempt` is the Python loop
variable, `remaining` the number of loop iterations left
(`attempt + remaining = max_retries` at every call).  Returns the result
together with the number of attempts made. -/
def retryLoop (net : Nat → Option Soup) (max_retries attempt remaining : Nat) :
    Option Soup × Nat :=
  match remaining with
  | 0 => (none, attempt)
  | r + 1 =>
    match net attempt with
    | some s => (some s, attempt + 1)
    | none =>
      if attempt = max_retries - 1 then (none, attempt + 1)
      else retryLoop net max_retries (attempt + 1) r

/-- `WebScraper.get_page_content`: `none` immediately (zero attempts) on an
invalid URL, otherwise up to `max_retries` attempts (`range(max_retries)`
is empty when `max_retries = 0`, so the function falls through and returns
`None` without any attempt). -/
def get_page_content (net : Nat → Option Soup) (max_retries : Nat) (url : String) :
    Option Soup × Nat :=
  if is_valid_url url then retryLoop net max_retries 0 max_retries
  else (none, 0)

/-! ### Data Cleaner (scraper.py lines 145-186) -/

/-- One field's cleaning rule: the four optional operations, each `False`
when absent from the rule dict (`rule.get(op, False)`). -/
structure Rule where
  remove_whitespace : Bool
  remove_currency : Bool
  convert_to_float : Bool
  convert_to_int : Bool
deriving DecidableEq

/-- Smallest `k ≤ fuel` with `den ∣ 10 ^ k` (the denominator of a float's
rational stand-in always divides a power of ten). -/
def ratDecimalAux (den : Nat) (k fuel : Nat) : Option Nat :=
  match fuel with
  | 0 => none
  | f + 1 => if 10 ^ k % den = 0 then some k else ratDecimalAux den (k + 1) f

/-- Decimal rendering of the rational standing in for a Python float
(`str(value)` when the value is a float): sign, integer part, fractional
part, with `.0` for integral values.  Scientific notation for extreme
magnitudes is not modelled (unused by the program's rule pipelines on the
inputs considered). -/
def ratDecimalRepr (q : ℚ) : String :=
  match ratDecimalAux q.den 0 401 with
  | none => toString q.num ++ "/" ++ toString q.den
  | some k =>
    let digits := toString (q.num.natAbs * (10 ^ k / q.den))
    let digits :=
      if digits.length ≤ k then
        String.mk (List.replicate (k + 1 - digits.length) '0') ++ digits
      else digits
    let ip := String.mk (digits.toList.take (digits.length - k))
    let fp := String.mk (digits.toList.drop (digits.length - k))
    (if q.num < 0 then "-" else "") ++ ip ++ "." ++ (if k = 0 then "0" else fp)

/-- Python `str(value)` for the values flowing through the cleaning
pipeline. -/
def pyStr : Value → String
  | .str s => s
  | .num q => ratDecimalRepr q
  | .int n => toString n
  | .null => "None"

/-- Numeric value of a digit character. -/
def digitVal (c : Char) : Nat := c.toNat - 48

/-- Greedy parse of a digit group with Python's underscore rule (an
underscore must sit between two digits of the group): returns the value,
the number of digits consumed, and the rest of the input. -/
def parseDigits : List Char → Nat → Nat → Nat × Nat × List Char
  | [], acc, n => (acc, n, [])
  | c :: r, acc, n =>
    if c.isDigit then parseDigits r (acc * 10 + digitVal c) (n + 1)
    else if c = '_' ∧ n ≠ 0 then
      match r with
      | d :: r2 =>
        if d.isDigit then parseDigits r2 (acc * 10 + digitVal d) (n + 1)
        else (acc, n, c :: r)
      | [] => (acc, n, [c])
    else (acc, n, c :: r)

/-- Model of Python `float()` on finite decimal literals: optional
whitespace and sign, digits with optional decimal point and exponent,
underscores between digits.  `none` models a raised `ValueError`;
`inf`/`nan` forms and overflow to infinity are outside the model. -/
def pyFloat (s : String) : Option ℚ :=
  let l := listDropWhileEnd isPySpace (s.toList.dropWhile isPySpace)
  let sl : Bool × List Char :=
    match l with
    | '+' :: r => (false, r)
    | '-' :: r => (true, r)
    | _ => (false, l)
  let ipr := parseDigits sl.2 0 0
  let fpr : Nat × Nat × List Char :=
    match ipr.2.2 with
    | '.' :: r => parseDigits r 0 0
    | _ => (0, 0, ipr.2.2)
  if ipr.2.1 + fpr.2.1 = 0 then none
  else
    let m : Nat := ipr.1 * 10 ^ fpr.2.1 + fpr.1
    let expRes : Option Int :=
      match fpr.2.2 with
      | [] => some 0
      | e :: r =>
        if e = 'e' ∨ e = 'E' then
          let er : Bool × List Char :=
            match r with
            | '+' :: r2 => (false, r2)
            | '-' :: r2 => (true, r2)
            | _ => (false, r)
          let ev := parseDigits er.2 0 0
          if ev.2.1 ≠ 0 ∧ ev.2.2 = [] then
            some (if er.1 then -(ev.1 : Int) else (ev.1 : Int))
          else none
        else none
    match expRes with
    | none => none
    | some e =>
      let t : Int := e - (fpr.2.1 : Int)
      let sm : Int := if sl.1 then -(m : Int) else (m : Int)
      some (if 0 ≤ t then mkRat (sm * (10 : Int) ^ t.toNat) 1
            else mkRat sm ((10 : Nat) ^ (-t).toNat))

/-- Python `str(value).replace(',', '')` on an already-stringified value. -/
def stripCommas (s : String) : String :=
  String.mk (s.toList.filter (fun c => c ≠ ','))

/-- Python `int(float)` truncation toward zero, on the rational model. -/
def ratTruncInt (q : ℚ) : ℤ := Int.tdiv q.num (q.den : ℤ)

/-- Python `str.split()` with no argument: whitespace runs, no empty
words (right fold: a leading non-space character either starts a new word
or extends the word that begins right after it). -/
def wsWords : List Char → List (List Char)
  | [] => []
  | c :: r =>
    let rest := wsWords r
    if isPySpace c then rest
    else
      match r.head? with
      | none => [[c]]
      | some d =>
        if isPySpace d then [c] :: rest
        else
          match rest with
          | [] => [[c]]
          | w :: ws => (c :: w) :: ws

/-- Python `' '.join(str(value).split())` (the `remove_whitespace`
operation). -/
def squashWhitespace (s : String) : String :=
  String.mk (joinChar ' ' (wsWords s.toList))

/-- Python `re.sub(r'[^0-9.,]', '', str(value))` restricted to ASCII
digits (the `remove_currency` operation). -/
def stripNonNumeric (s : String) : String :=
  String.mk (s.toList.filter (fun c => c.isDigit ∨ c = '.' ∨ c = ','))

/-- One field's cleaning pipeline, in the fixed source order
(`remove_whitespace`, `remove_currency`, `convert_to_float`,
`convert_to_int`); entered only for non-null incoming values, but a `None`
produced mid-pipeline flows through the remaining steps (as in the
source, where only the initial value is checked for `None`). -/
def applyRule (rule : Rule) (v0 : Value) : Value :=
  let v1 := if rule.remove_whitespace then Value.str (squashWhitespace (pyStr v0)) else v0
  let v2 := if rule.remove_currency then Value.str (stripNonNumeric (pyStr v1)) else v1
  let v3 :=
    if rule.convert_to_float then
      match pyFloat (stripCommas (pyStr v2)) with
      | some q => Value.num q
      | none => Value.null
    else v2
  if rule.convert_to_int then
    match pyFloat (stripCommas (pyStr v3)) with
    | some q => Value.int (ratTruncInt q)
    | none => Value.null
  else v3

/-- `key in cleaning_rules` / `cleaning_rules[key]` on the rules dict. -/
def lookupRule (rules : List (String × Rule)) (k : String) : Option Rule :=
  (rules.find? (fun p => p.1 == k)).map (fun p => p.2)

/-- One entry of `cleaned_item`: the pipeline applies only when the key has
a rule and the value is not `None`; the key itself is always kept. -/
def cleanEntry (rules : List (String × Rule)) (kv : String × Value) : String × Value :=
  match lookupRule rules kv.1 with
  | some rule =>
    match kv.2 with
    | Value.null => (kv.1, Value.null)
    | v => (kv.1, applyRule rule v)
  | none => (kv.1, kv.2)

/-- `WebScraper.clean_data`.  The empty rules list models both Python
`None` and the empty dict (`if not cleaning_rules: return data`). -/
def clean_data (data : List Record) (cleaning_rules : List (String × Rule)) : List Record :=
  if cleaning_rules.isEmpty then data
  else data.map (fun item => item.map (cleanEntry cleaning_rules))

/-! ### Field Extractor (scraper.py lines 253-281) -/

/-- A field selector from the selector map: a plain CSS-selector string, or
a dict `{'selector': ..., 'attribute': ...}` (`complex sel attr`, with
`attr = none` when the `attribute` key is absent; an empty-string
attribute is falsy in Python and also takes the text branch). -/
inductive FieldSelector where
  | simple : String → FieldSelector
  | complex : String → Option String → FieldSelector
deriving DecidableEq

/-- The CSS selector applied inside the container
(`selector.get('selector', '')` for the dict form). -/
def FieldSelector.selStr : FieldSelector → String
  | .simple s => s
  | .complex s _ => s

/-- Extraction of one field from one item container (the body of the inner
`for key, selector in selectors.items()` loop).  `url` is the crawl's base
URL argument, used to absolutize `href`/`src` attributes; the truthiness
check `and value` skips resolution for empty attribute values. -/
def extractField (url : String) (it : Item) : FieldSelector → Value
  | .simple sel =>
    match it.selectOne sel with
    | some e => Value.str (pyStrip e.text)
    | none => Value.null
  | .complex sel attr =>
    match it.selectOne sel with
    | none => Value.null
    | some e =>
      match attr with
      | some a =>
        if a ≠ "" then
          if (a = "href" ∨ a = "src") ∧ pyStrip (e.get a "") ≠ "" then
            Value.str (make_absolute_url url (pyStrip (e.get a "")))
          else Value.str (pyStrip (e.get a ""))
        else Value.str (pyStrip e.text)
      | none => Value.str (pyStrip e.text)

/-- The selector map: the reserved `item_selector` entry plus the declared
fields in dict insertion order (the extraction loop skips the
`item_selector` key, so the fields list holds the remaining entries). -/
structure Selectors where
  item_selector : String
  fields : List (String × FieldSelector)
deriving DecidableEq

/-- One record (`item_data`) built from one container. -/
def extractItem (url : String) (fields : List (String × FieldSelector)) (it : Item) : Record :=
  fields.map (fun kv => (kv.1, extractField url it kv.2))

/-- All records extracted from one page. -/
def extractPage (url : String) (sel : Selectors) (soup : Soup) : List Record :=
  (soup.select sel.item_selector).map (extractItem url sel.fields)

/-! ### Pagination Controller (scraper.py lines 229-240 and 283-293) -/

/-- The pagination config dict.  `none` at use sites models both Python
`None` and the empty dict (both falsy); option fields distinguish an
absent key from an empty-string value. -/
structure Pagination where
  next_selector : Option String
  url_pattern : Option String
  params : List (String × String)
  page_param : Option String
deriving DecidableEq

/-- `limit_pages is None or page_num <= limit_pages` (while-loop guard). -/
def limWithin (lim : Option Nat) (page_num : Nat) : Bool :=
  match lim with
  | none => true
  | some l => page_num ≤ l

/-- `limit_pages is None or page_num < limit_pages` (continuation check). -/
def limBelow (lim : Option Nat) (page_num : Nat) : Bool :=
  match lim with
  | none => true
  | some l => page_num < l

/-- The opening brace character (written by code point to keep brace
characters out of the source text). -/
def braceOpen : Char := Char.ofNat 123

/-- The closing brace character. -/
def braceClose : Char := Char.ofNat 125

/-- The scan of Python `str.format`: a doubled brace is an escape emitting
one literal brace, the field `\x7bpage\x7d` is replaced, and any other
replacement field or stray brace raises (KeyError for an unknown field
name, ValueError for a lone brace), modelled as `none`.  Format specs
such as `\x7bpage:d\x7d` are treated as an error as well (never
constructed by the program).  One fuel unit per consumed character
suffices since every step consumes at least one. -/
def formatPageAux (repl : List Char) : Nat → List Char → Option (List Char)
  | 0, l => some l
  | _ + 1, [] => some []
  | f + 1, c :: rest =>
    if c = braceOpen then
      if rest.head?.getD ' ' = braceOpen then
        (formatPageAux repl f (rest.drop 1)).map (fun t => braceOpen :: t)
      else if rest.take 5 = "page\x7d".toList then
        (formatPageAux repl f (rest.drop 5)).map (fun t => repl ++ t)
      else none
    else if c = braceClose then
      if rest.head?.getD ' ' = braceClose then
        (formatPageAux repl f (rest.drop 1)).map (fun t => braceClose :: t)
      else none
    else (formatPageAux repl f rest).map (fun t => c :: t)

/-- Python `template.format(page=n)`; `none` models a raised
KeyError/ValueError (propagating out of the loop). -/
def formatPage (template : String) (page_num : Nat) : Option String :=
  (formatPageAux (toString page_num).toList template.toList.length
    template.toList).map String.mk

/-- Python dict assignment `params[k] = v` on an insertion-ordered dict. -/
def dictSet (l : List (String × String)) (k v : String) : List (String × String) :=
  if l.any (fun p => p.1 == k) then l.map (fun p => if p.1 = k then (k, v) else p)
  else l ++ [(k, v)]

/-- The query-params dict finally passed to `session.get` (page numbers are
stringified as the HTTP layer would send them). -/
abbrev Params := List (String × String)

/-- Request construction for one iteration (scraper.py lines 229-240):
`page_url`/`params` and then `full_url`.  `none` models `format` or
`urljoin` raising (propagating out of the loop). -/
def buildRequest (url : String) (pag : Option Pagination) (page_num : Nat) :
    Option (String × Option Params) :=
  match pag with
  | some p =>
    if page_num > 1 then
      match formatPage ((p.url_pattern).getD "") page_num with
      | none => none
      | some page_url =>
        if page_url ≠ "" then (urljoinModel url page_url).map (fun fu => (fu, none))
        else some (url, some (dictSet p.params ((p.page_param).getD "page")
            (toString page_num)))
    else
      if url ≠ "" then (urljoinModel url url).map (fun fu => (fu, none))
      else some (url, none)
  | none =>
    if url ≠ "" then (urljoinModel url url).map (fun fu => (fu, none))
    else some (url, none)

/-- The `has_next_page` computation (scraper.py lines 283-293): a truthy
`next_selector` asks the page for a next-link element; otherwise numeric
pagination continues while the page yielded items; both are bounded by the
page limit; no pagination config means stop after one page. -/
def decideNext (pag : Option Pagination) (soup : Soup) (itemsLen : Nat)
    (lim : Option Nat) (page_num : Nat) : Bool :=
  match pag with
  | none => false
  | some p =>
    match p.next_selector with
    | some ns =>
      if ns ≠ "" then soup.selectOneSome ns && limBelow lim page_num
      else decide (0 < itemsLen) && limBelow lim page_num
    | none => decide (0 < itemsLen) && limBelow lim page_num

/-! ### Crawl Orchestrator (scraper.py lines 195-308) -/

/-- What the loop has produced when it exits: the accumulated records, the
trace of issued requests (URL and query params of each fetch), and the
page count reported at the end (`page_num - 1`). -/
structure LoopResult where
  data : List Record
  requests : List (String × Option Params)
  pages : Nat
deriving DecidableEq

/-- The while loop of `scrape_website`.  `net page attempt` models the
outcome of the `attempt`-th `session.get` of page `page` (each iteration
fetches through `get_page_content`, so retries are included); `fuel`
bounds the number of iterations — the Python loop may be unbounded, and
every theorem below supplies sufficient fuel.  `none` models an uncaught
exception escaping from `urljoin`. -/
def scrapeLoop (net : Nat → Nat → Option Soup) (max_retries : Nat) (url : String)
    (sel : Selectors) (pag : Option Pagination) (lim : Option Nat) :
    Nat → Bool → Nat → List Record → List (String × Option Params) → Option LoopResult
  | 0, _, page_num, data, reqs => some ⟨data, reqs, page_num - 1⟩
  | fuel + 1, has_next, page_num, data, reqs =>
    if has_next && limWithin lim page_num then
      match buildRequest url pag page_num with
      | none => none
      | some fp =>
        match (get_page_content (net page_num) max_retries fp.1).1 with
        | none => some ⟨data, reqs ++ [fp], page_num - 1⟩
        | some soup =>
          let items := soup.select sel.item_selector
          if items.isEmpty then some ⟨data, reqs ++ [fp], page_num - 1⟩
          else
            scrapeLoop net max_retries url sel pag lim fuel
              (decideNext pag soup items.length lim page_num)
              (page_num + 1)
              (data ++ items.map (extractItem url sel.fields))
              (reqs ++ [fp])
    else some ⟨data, reqs, page_num - 1⟩

/-- `WebScraper.scrape_website`: invalid start URL yields `[]` at once;
otherwise the loop runs from page 1 with an empty accumulator, and the
cleaner is applied once at the end when rules are supplied (`[]` models
both `None` and the falsy empty rules dict). -/
def scrape_website (net : Nat → Nat → Option Soup) (max_retries fuel : Nat)
    (url : String) (sel : Selectors) (pag : Option Pagination) (lim : Option Nat)
    (cleaning_rules : List (String × Rule)) : Option (List Record) :=
  if is_valid_url url then
    (scrapeLoop net max_retries url sel pag lim fuel true 1 [] []).map
      (fun r => if cleaning_rules.isEmpty then r.data else clean_data r.data cleaning_rules)
  else some []

/-! ### Refined extraction model: BeautifulSoup attribute values

The `Elem`/`Item`/`Soup` model above types every attribute value as a
string — faithful exactly when BeautifulSoup returns strings, i.e. for
every single-valued attribute (`href`, `src`, `id`, ...).  BeautifulSoup
however returns a *list* of strings for multi-valued attributes
(`class`, `rel`, ...), and the source's
`element.get(selector['attribute'], '').strip()` (scraper.py line 265)
then raises AttributeError.  The `B`-suffixed layer below refines the
model with that representation so the raising path is expressible:
`none` models the uncaught exception aborting the crawl. -/

/-- A BeautifulSoup attribute value: a string, or a list of strings for a
multi-valued attribute. -/
inductive AttrVal where
  | str : String → AttrVal
  | list : List String → AttrVal
deriving DecidableEq

/-- An element with BeautifulSoup-typed attribute values. -/
structure ElemB where
  text : String
  attrs : List (String × AttrVal)
deriving DecidableEq

/-- Python `element.get(a, d)` on the refined representation. -/
def ElemB.get (e : ElemB) (a : String) (d : AttrVal) : AttrVal :=
  ((e.attrs.find? (fun p => p.1 == a)).map (fun p => p.2)).getD d

/-- One item container over refined elements. -/
structure ItemB where
  found : List (String × ElemB)
deriving DecidableEq

/-- `item.select_one(sel)` within the container's subtree. -/
def ItemB.selectOne (it : ItemB) (sel : String) : Option ElemB :=
  (it.found.find? (fun p => p.1 == sel)).map (fun p => p.2)

/-- A parsed page over refined containers. -/
structure SoupB where
  selectResults : List (String × List ItemB)
  selectOneHits : List String
deriving DecidableEq

/-- `soup.select(sel)` on the refined page. -/
def SoupB.select (s : SoupB) (sel : String) : List ItemB :=
  ((s.selectResults.find? (fun p => p.1 == sel)).map (fun p => p.2)).getD []

/-- `.strip()` on an attribute value: strings are stripped; a list (bs4
multi-valued attribute) has no strip method — AttributeError, modelled as
`none`. -/
def stripAttr : AttrVal → Option String
  | .str s => some (pyStrip s)
  | .list _ => none

/-- Extraction of one field from one refined container; `none` models the
AttributeError raised when `.strip()` meets a list-valued attribute. -/
def extractFieldB (url : String) (it : ItemB) : FieldSelector → Option Value
  | .simple sel =>
    match it.selectOne sel with
    | some e => some (Value.str (pyStrip e.text))
    | none => some Value.null
  | .complex sel attr =>
    match it.selectOne sel with
    | none => some Value.null
    | some e =>
      match attr with
      | some a =>
        if a ≠ "" then
          match stripAttr (e.get a (AttrVal.str "")) with
          | none => none
          | some v =>
            if (a = "href" ∨ a = "src") ∧ v ≠ "" then
              some (Value.str (make_absolute_url url v))
            else some (Value.str v)
        else some (Value.str (pyStrip e.text))
      | none => some (Value.str (pyStrip e.text))

/-- One record from one refined container: the first raising field aborts
(the loop body raises out of `scrape_website`). -/
def extractItemB (url : String) (it : ItemB) :
    List (String × FieldSelector) → Option Record
  | [] => some []
  | kv :: rest =>
    match extractFieldB url it kv.2 with
    | none => none
    | some v =>
      match extractItemB url it rest with
      | none => none
      | some r => some ((kv.1, v) :: r)

/-- All records of a page's refined containers; a raising container aborts. -/
def extractItemsB (url : String) (fields : List (String × FieldSelector)) :
    List ItemB → Option (List Record)
  | [] => some []
  | it :: rest =>
    match extractItemB url it fields with
    | none => none
    | some rec =>
      match extractItemsB url fields rest with
      | none => none
      | some rs => some (rec :: rs)

/-- Extraction over a refined page. -/
def extractPageB (url : String) (sel : Selectors) (soup : SoupB) : Option (List Record) :=
  extractItemsB url sel.fields (soup.select sel.item_selector)

/-! ### Refined cleaning model: float infinities and OverflowError

The `Value`/`clean_data` model above maps every failed numeric parse to
null — faithful whenever Python `float()` either succeeds with a finite
value or raises ValueError.  Python however parses `inf`/`Infinity`/`nan`
names and overflows huge decimal literals to infinity, and
`int(float(...))` on an infinity raises OverflowError, which the source's
`except ValueError` (scraper.py lines 172-182) does not catch.  The
`B`-suffixed layer below carries infinities and NaN so that the raising
path is expressible: `none` models the uncaught exception aborting
`clean_data`. -/

/-- Binary exponentiation with fuel (the fuel only bounds the halving
recursion, so the reduction depth is logarithmic — the plain unary
`Nat.pow` recursion is too deep for kernel evaluation at exponent
1024). -/
def sqPowAux (b : Nat) : Nat → Nat → Nat
  | 0, _ => 1
  | f + 1, n =>
    if n = 0 then 1
    else
      let h := sqPowAux b f (n / 2)
      if n % 2 = 0 then h * h else h * h * b

/-- `b ^ n` by binary exponentiation; see `sqPow_eq`. -/
def sqPow (b n : Nat) : Nat := sqPowAux b n n

/-- When every attempt fails, the retry loop makes every remaining attempt
and returns failure after exactly `max_retries` attempts. -/
theorem retryLoop_all_fail (net : Nat → Option Soup) (mr : Nat)
    (h : ∀ i, net i = none) :
    ∀ rem a, a + rem = mr → 0 < rem → retryLoop net mr a rem = (none, mr) := by
  intro rem
  induction rem with
  | zero => intro a h1 h2; omega
  | succ r ih =>
    intro a hsum _
    rw [retryLoop]
    simp only [h a]
    by_cases ha : a = mr - 1
    · rw [if_pos ha, ha]
      have hone : mr - 1 + 1 = mr := by omega
      rw [hone]
    · rw [if_neg ha]
      exact ih (a + 1) (by omega) (by omega)

/-- The first successful attempt ends the retry loop immediately, after
`k + 1` attempts. -/
theorem retryLoop_success (net : Nat → Option Soup) (mr k : Nat) (s : Soup)
    (hk : net k = some s) (hbefore : ∀ j, j < k → net j = none) (hkmr : k < mr) :
    ∀ rem a, a + rem = mr → a ≤ k → retryLoop net mr a rem = (some s, k + 1) := by
  intro rem
  induction rem with
  | zero => intro a h1 h2; omega
  | succ r ih =>
    intro a hsum hak
    by_cases hek : a = k
    · subst hek
      rw [retryLoop]
      simp only [hk]
    · have hlt : a < k := by omega
      rw [retryLoop]
      simp only [hbefore a hlt]
      have hne : ¬ (a = mr - 1) := by omega
      rw [if_neg hne]
      exact ih (a + 1) (by omega) (by omega)

/-! ### Claim theorems -/

/-- Claim C5: `get_page_content` fails exactly in two cases: an invalid
URL fails immediately with zero attempts; against an always-failing target
it fails after exactly `max_retries` attempts (for every
`max_retries ≥ 1`); and any first successful attempt within the budget
returns the page instead. -/
theorem C5_fetch_failure_cases (net : Nat → Option Soup) (mr : Nat) (url : String) :
    (is_valid_url url = false → get_page_content net mr url = (none, 0))
    ∧ (is_valid_url url = true → 1 ≤ mr → (∀ i, net i = none) →
        get_page_content net mr url = (none, mr))
    ∧ (is_valid_url url = true → ∀ k s, k < mr → net k = some s →
        (∀ j, j < k → net j = none) →
        get_page_content net mr url = (some s, k + 1)) := by
  refine ⟨?_, ?_, ?_⟩
  · intro h
    simp [get_page_content, h]
  · intro h hmr hfail
    simp only [get_page_content, h, if_true]
    exact retryLoop_all_fail net mr hfail mr 0 (by omega) (by omega)
  · intro h k s hkmr hk hbefore
    simp only [get_page_content, h, if_true]
    exact retryLoop_success net mr k s hk hbefore hkmr mr 0 (by omega) (by omega)

/-- Witness for C5: two always-failing attempts against a valid URL. -/
theorem C5_fetch_failure_witness :
    get_page_content (fun _ => none) 2 "https://x.com" = (none, 2) :=
  (C5_fetch_failure_cases (fun _ => none) 2 "https://x.com").2.1 (by decide) (by omega)
    (fun _ => rfl)

/-- Claim C10: for an `Attributed` field selector, an element found without
the named attribute stores the empty string (never null), and an
empty (post-strip) `href`/`src` value is stored as-is, not passed through
URL resolution. -/
theorem C10_attributed_empty_value :
    (∀ (url : String) (it : Item) (sel a : String) (e : Elem),
      it.selectOne sel = some e → a ≠ "" →
      e.attrs.find? (fun p => p.1 == a) = none →
      extractField url it (FieldSelector.complex sel (some a)) = Value.str "")
    ∧ (∀ (url : String) (it : Item) (sel a : String) (e : Elem),
      it.selectOne sel = some e → (a = "href" ∨ a = "src") →
      pyStrip (e.get a "") = "" →
      extractField url it (FieldSelector.complex sel (some a)) = Value.str "") := by
  constructor
  · intro url it sel a e hsel ha hattr
    have hget : e.get a "" = "" := by
      simp [Elem.get, hattr]
    simp only [extractField, hsel, if_pos ha, hget]
    rw [if_neg (fun h => h.2 rfl)]
    rfl
  · intro url it sel a e hsel ha hstrip
    have hane : a ≠ "" := by
      rcases ha with h | h <;> simp [h]
    simp only [extractField, hsel, if_pos hane, hstrip]
    rw [if_neg (fun h => h.2 rfl)]

/-- Witness for C10: an anchor element with no `href` attribute yields the
empty string. -/
theorem C10_attributed_empty_witness :
    extractField "https://x.com" ⟨[("a", ⟨"t", []⟩)]⟩
      (FieldSelector.complex "a" (some "href")) = Value.str "" :=
  C10_attributed_empty_value.1 "https://x.com" ⟨[("a", ⟨"t", []⟩)]⟩ "a" "href" ⟨"t", []⟩
    (by decide) (by decide) (by decide)

/-- Claim C2: with a truthy `next_selector` (the NextLink strategy, whose
config has no `url_pattern`), the controller's decision on every page —
the first included — is Continue exactly when the page has an element
matching the selector and the page limit is unset or not yet reached; and
each page-2-or-later request reuses the original crawl URL (only query
params are added). -/
theorem C2_next_link_controller (p : Pagination) (soup : Soup) (itemsLen : Nat)
    (lim : Option Nat) (page_num : Nat) (url : String) (ns : String)
    (hns : p.next_selector = some ns) (hne : ns ≠ "")
    (hup : (p.url_pattern).getD "" = "") :
    (decideNext (some p) soup itemsLen lim page_num
      = (soup.selectOneSome ns && limBelow lim page_num))
    ∧ (2 ≤ page_num →
        buildRequest url (some p) page_num
          = some (url, some (dictSet p.params ((p.page_param).getD "page")
              (toString page_num)))) := by
  constructor
  · simp [decideNext, hns, hne]
  · intro hpage
    have h1 : page_num > 1 := by omega
    have hf : formatPage "" page_num = some "" := rfl
    simp only [buildRequest, if_pos h1, hup, hf]
    simp

/-- Witness for C2: the page-1 decision on a page without a next-link
element (Stop), and the page-2 request reusing the crawl URL. -/
theorem C2_next_link_witness :
    (decideNext (some ⟨some "li.next a", none, [], none⟩) ⟨[], []⟩ 4 (some 3) 1
      = (Soup.selectOneSome ⟨[], []⟩ "li.next a" && limBelow (some 3) 1))
    ∧ buildRequest "https://x.com" (some ⟨some "li.next a", none, [], none⟩) 2
        = some ("https://x.com", some [("page", "2")]) :=
  ⟨(C2_next_link_controller ⟨some "li.next a", none, [], none⟩ ⟨[], []⟩ 4 (some 3) 1
      "https://x.com" "li.next a" rfl (by decide) rfl).1,
   (C2_next_link_controller ⟨some "li.next a", none, [], none⟩ ⟨[], []⟩ 4 (some 3) 2
      "https://x.com" "li.next a" rfl (by decide) rfl).2 (by omega)⟩

/-- Claim C1: when the fetch of the current page fails (any page,
including the first), the loop stops at once and returns exactly the
records accumulated from the previously successful pages, unchanged; only
the failing page's request was issued. -/
theorem C1_fetch_failure_partial (net : Nat → Nat → Option Soup) (mr : Nat)
    (url : String) (sel : Selectors) (pag : Option Pagination) (lim : Option Nat)
    (fuel page_num : Nat) (data : List Record) (reqs : List (String × Option Params))
    (fp : String × Option Params)
    (hlim : limWithin lim page_num = true)
    (hreq : buildRequest url pag page_num = some fp)
    (hfail : (get_page_content (net page_num) mr fp.1).1 = none) :
    scrapeLoop net mr url sel pag lim (fuel + 1) true page_num data reqs
      = some ⟨data, reqs ++ [fp], page_num - 1⟩ := by
  rw [scrapeLoop]
  simp only [hlim, Bool.and_self, if_true, hreq, hfail]

/-- Witness for C1: a fetch failure on page 1 returns the accumulator
untouched. -/
theorem C1_fetch_failure_witness :
    scrapeLoop (fun _ _ => none) 1 "https://x.com" ⟨"div", []⟩ none none 1 true 1
      [[("t", Value.str "v")]] []
      = some ⟨[[("t", Value.str "v")]], [("https://x.com", none)], 0⟩ :=
  C1_fetch_failure_partial (fun _ _ => none) 1 "https://x.com" ⟨"div", []⟩ none none 0 1
    [[("t", Value.str "v")]] [] ("https://x.com", none) rfl (by decide) rfl

/-- Claim C4: a page whose extraction yields zero items ends the crawl:
the loop returns the records gathered so far and issues no further
request, whatever the pagination strategy would have decided. -/
theorem C4_empty_extraction_terminates (net : Nat → Nat → Option Soup) (mr : Nat)
    (url : String) (sel : Selectors) (pag : Option Pagination) (lim : Option Nat)
    (fuel page_num : Nat) (data : List Record) (reqs : List (String × Option Params))
    (fp : String × Option Params) (soup : Soup)
    (hlim : limWithin lim page_num = true)
    (hreq : buildRequest url pag page_num = some fp)
    (hfetch : (get_page_content (net page_num) mr fp.1).1 = some soup)
    (hempty : soup.select sel.item_selector = []) :
    scrapeLoop net mr url sel pag lim (fuel + 1) true page_num data reqs
      = some ⟨data, reqs ++ [fp], page_num - 1⟩ := by
  rw [scrapeLoop]
  simp only [hlim, Bool.and_self, if_true, hreq, hfetch, hempty, List.isEmpty_nil, if_true]

/-- Witness for C4: an empty page 1 under a next-link strategy that would
otherwise continue. -/
theorem C4_empty_extraction_witness :
    scrapeLoop (fun _ _ => some ⟨[], ["li.next a"]⟩) 1 "https://x.com" ⟨"div", []⟩
      (some ⟨some "li.next a", none, [], none⟩) none 1 true 1
      [[("t", Value.str "v")]] []
      = some ⟨[[("t", Value.str "v")]], [("https://x.com", none)], 0⟩ :=
  C4_empty_extraction_terminates (fun _ _ => some ⟨[], ["li.next a"]⟩) 1 "https://x.com"
    ⟨"div", []⟩ (some ⟨some "li.next a", none, [], none⟩) none 0 1
    [[("t", Value.str "v")]] [] ("https://x.com", none) ⟨[], ["li.next a"]⟩
    rfl (by decide) rfl rfl

/-- Claim C6: cleaning is total on numeric conversion: under
strip-non-numeric + parse-float, "$1,234.50" becomes exactly 1234.50
(grouping commas removed before conversion); an unparsable "N/A" becomes
null; and a parse-float rule always yields a number or null — no failure
escapes. -/
theorem C6_clean_numeric_total (v : Value) (rule : Rule)
    (hf : rule.convert_to_float = true) (hi : rule.convert_to_int = false) :
    (clean_data [[("price", Value.str "$1,234.50")]]
        [("price", ⟨false, true, true, false⟩)]
      = [[("price", Value.num ((2469 : ℚ) / 2))]])
    ∧ (clean_data [[("price", Value.str "N/A")]]
        [("price", ⟨false, false, true, false⟩)]
      = [[("price", Value.null)]])
    ∧ ((∃ q, applyRule rule v = Value.num q) ∨ applyRule rule v = Value.null) := by
  refine ⟨?_, by decide, ?_⟩
  · have hq : ((2469 : ℚ) / 2) = mkRat 123450 100 := by
      rw [Rat.mkRat_eq_div]
      norm_num
    rw [hq]
    decide
  · have key : ∀ w : Value,
        (∃ q, (match pyFloat (stripCommas (pyStr w)) with
          | some q => Value.num q
          | none => Value.null) = Value.num q) ∨
        (match pyFloat (stripCommas (pyStr w)) with
          | some q => Value.num q
          | none => Value.null) = Value.null := by
      intro w
      cases pyFloat (stripCommas (pyStr w)) with
      | none => exact Or.inr rfl
      | some q => exact Or.inl ⟨q, rfl⟩
    simp only [applyRule, hf, hi, if_true, Bool.false_eq_true, if_false]
    exact key _

/-- Witness for C6: a parse-float rule on the literal "7". -/
theorem C6_clean_numeric_witness :
    (clean_data [[("price", Value.str "$1,234.50")]]
        [("price", ⟨false, true, true, false⟩)]
      = [[("price", Value.num ((2469 : ℚ) / 2))]])
    ∧ (clean_data [[("price", Value.str "N/A")]]
        [("price", ⟨false, false, true, false⟩)]
      = [[("price", Value.null)]])
    ∧ ((∃ q, applyRule ⟨false, false, true, false⟩ (Value.str "7") = Value.num q) ∨
        applyRule ⟨false, false, true, false⟩ (Value.str "7") = Value.null) :=
  C6_clean_numeric_total (Value.str "7") ⟨false, false, true, false⟩ rfl rfl

/-- A field whose selector finds nothing in the container extracts `null`
(refined extraction model). -/
theorem extractFieldB_missing (url : String) (it : ItemB) (fs : FieldSelector)
    (h : it.selectOne fs.selStr = none) : extractFieldB url it fs = some Value.null := by
  cases fs with
  | simple s =>
    simp only [FieldSelector.selStr] at h
    simp [extractFieldB, h]
  | complex s a =>
    simp only [FieldSelector.selStr] at h
    simp [extractFieldB, h]

/-- A field extraction succeeds whenever the named attribute, if any, is
not list-valued on the selected element. -/
theorem extractFieldB_isSome (url : String) (it : ItemB) (fs : FieldSelector)
    (h : ∀ s a, fs = FieldSelector.complex s (some a) →
      ∀ e, it.selectOne s = some e →
      ∀ ls, e.get a (AttrVal.str "") ≠ AttrVal.list ls) :
    ∃ v, extractFieldB url it fs = some v := by
  cases fs with
  | simple s =>
    cases hse : it.selectOne s with
    | none => exact ⟨Value.null, by simp [extractFieldB, hse]⟩
    | some e => exact ⟨Value.str (pyStrip e.text), by simp [extractFieldB, hse]⟩
  | complex s a =>
    cases hse : it.selectOne s with
    | none => exact ⟨Value.null, by simp [extractFieldB, hse]⟩
    | some e =>
      cases a with
      | none => exact ⟨Value.str (pyStrip e.text), by simp [extractFieldB, hse]⟩
      | some a =>
        by_cases ha : a = ""
        · subst ha
          exact ⟨Value.str (pyStrip e.text), by simp [extractFieldB, hse]⟩
        · cases hv : ElemB.get e a (AttrVal.str "") with
          | list ls => exact absurd hv (h s a rfl e hse ls)
          | str sv =>
            by_cases hc : (a = "href" ∨ a = "src") ∧ pyStrip sv ≠ ""
            · refine ⟨Value.str (make_absolute_url url (pyStrip sv)), ?_⟩
              simp only [extractFieldB, hse, if_pos ha, hv, stripAttr]
              rw [if_pos hc]
            · refine ⟨Value.str (pyStrip sv), ?_⟩
              simp only [extractFieldB, hse, if_pos ha, hv, stripAttr]
              rw [if_neg hc]

/-- Under fieldwise success, one container yields exactly one record with
the declared keys in order, each field paired with its extracted value. -/
theorem extractItemB_shape (url : String) (it : ItemB) :
    ∀ fields : List (String × FieldSelector),
    (∀ kv ∈ fields, ∃ v, extractFieldB url it kv.2 = some v) →
    ∃ rec, extractItemB url it fields = some rec
      ∧ rec.map Prod.fst = fields.map Prod.fst
      ∧ (∀ kv ∈ fields, ∀ v, extractFieldB url it kv.2 = some v → (kv.1, v) ∈ rec) := by
  intro fields
  induction fields with
  | nil =>
    intro _
    refine ⟨[], rfl, rfl, ?_⟩
    intro kv hkv
    simp at hkv
  | cons kv rest ih =>
    intro h
    obtain ⟨v, hv⟩ := h kv (by simp)
    obtain ⟨rec, hrec, hfst, hmem⟩ := ih (fun x hx => h x (by simp [hx]))
    refine ⟨(kv.1, v) :: rec, ?_, ?_, ?_⟩
    · simp [extractItemB, hv, hrec]
    · simp [hfst]
    · intro kv2 hkv2 v2 hv2
      rcases List.mem_cons.mp hkv2 with rfl | hkv2
      · rw [hv] at hv2
        injection hv2 with hv2
        rw [← hv2]
        exact List.mem_cons_self _ _
      · exact List.mem_cons_of_mem _ (hmem kv2 hkv2 v2 hv2)

/-- Under containerwise success, a page yields one record per
container. -/
theorem extractItemsB_shape (url : String) (fields : List (String × FieldSelector)) :
    ∀ items : List ItemB,
    (∀ it ∈ items, ∃ rec, extractItemB url it fields = some rec) →
    ∃ recs, extractItemsB url fields items = some recs
      ∧ recs.length = items.length
      ∧ (∀ r ∈ recs, ∃ it ∈ items, extractItemB url it fields = some r) := by
  intro items
  induction items with
  | nil =>
    intro _
    refine ⟨[], rfl, rfl, ?_⟩
    intro r hr
    simp at hr
  | cons it rest ih =>
    intro h
    obtain ⟨rec, hrec⟩ := h it (by simp)
    obtain ⟨recs, hrecs, hlen, hmem⟩ := ih (fun x hx => h x (by simp [hx]))
    refine ⟨rec :: recs, ?_, ?_, ?_⟩
    · simp [extractItemsB, hrec, hrecs]
    · simp [hlen]
    · intro r hr
      rcases List.mem_cons.mp hr with rfl | hr
      · exact ⟨it, by simp, hrec⟩
      · obtain ⟨it2, hit2, he2⟩ := hmem r hr
        exact ⟨it2, by simp [hit2], he2⟩

/-- Claim C7 counterexample: an Attributed field naming the multi-valued
`class` attribute makes the source raise AttributeError at
`element.get(...).strip()` (BeautifulSoup returns a list there), so on a
page with one matching container extraction aborts with no records at
all instead of returning one record with the declared key. -/
theorem C7_extract_counterexample :
    extractPageB "https://x.com"
      ⟨"div", [("cls", FieldSelector.complex "p" (some "class"))]⟩
      ⟨[("div", [⟨[("p", ⟨"t", [("class", AttrVal.list ["a", "b"])]⟩)]⟩])], []⟩
      = none := by decide

/-- Claim C7 (amended): provided every Attributed field's named attribute
is a string wherever it is present on the field's selected element (as
BeautifulSoup guarantees for single-valued attributes such as href or
src; a present multi-valued attribute such as class is a list and makes
the source raise AttributeError instead), extraction never raises and
returns exactly one record per matching item container, each with
exactly the declared field keys in declaration order, and a field whose
selector matches nothing inside its container is present with value
null, never absent. -/
theorem C7_extract_record_shape (url : String) (sel : Selectors) (soup : SoupB)
    (hattrs : ∀ it ∈ soup.select sel.item_selector, ∀ kv ∈ sel.fields,
      ∀ s a, kv.2 = FieldSelector.complex s (some a) →
      ∀ e, it.selectOne s = some e →
      ∀ ls, e.get a (AttrVal.str "") ≠ AttrVal.list ls) :
    ∃ recs, extractPageB url sel soup = some recs
      ∧ recs.length = (soup.select sel.item_selector).length
      ∧ (∀ r ∈ recs, r.map Prod.fst = sel.fields.map Prod.fst)
      ∧ (∀ it ∈ soup.select sel.item_selector, ∀ kv ∈ sel.fields,
          it.selectOne kv.2.selStr = none →
          ∃ rec, extractItemB url it sel.fields = some rec
            ∧ (kv.1, Value.null) ∈ rec) := by
  have hfield : ∀ it ∈ soup.select sel.item_selector, ∀ kv ∈ sel.fields,
      ∃ v, extractFieldB url it kv.2 = some v := by
    intro it hit kv hkv
    exact extractFieldB_isSome url it kv.2 (fun s a hfs e he ls =>
      hattrs it hit kv hkv s a hfs e he ls)
  have hitem : ∀ it ∈ soup.select sel.item_selector,
      ∃ rec, extractItemB url it sel.fields = some rec := by
    intro it hit
    obtain ⟨rec, hrec, _, _⟩ := extractItemB_shape url it sel.fields (hfield it hit)
    exact ⟨rec, hrec⟩
  obtain ⟨recs, hrecs, hlen, hmem⟩ :=
    extractItemsB_shape url sel.fields (soup.select sel.item_selector) hitem
  refine ⟨recs, hrecs, hlen, ?_, ?_⟩
  · intro r hr
    obtain ⟨it, hit, he⟩ := hmem r hr
    obtain ⟨rec, hrec, hfst, _⟩ := extractItemB_shape url it sel.fields (hfield it hit)
    rw [hrec] at he
    injection he with he
    rw [← he]
    exact hfst
  · intro it hit kv hkv hnone
    obtain ⟨rec, hrec, _, hmem2⟩ := extractItemB_shape url it sel.fields (hfield it hit)
    exact ⟨rec, hrec, hmem2 kv hkv Value.null (extractFieldB_missing url it kv.2 hnone)⟩

/-- Witness for C7: a page with one container and two simple fields whose
selectors match nothing yields one record carrying both keys with null
values. -/
theorem C7_extract_record_witness :
    ∃ recs, extractPageB "https://x.com"
        ⟨"div", [("title", FieldSelector.simple "h3"),
          ("price", FieldSelector.simple "p.price")]⟩
        ⟨[("div", [⟨[]⟩])], []⟩ = some recs
      ∧ recs.length
          = (SoupB.select ⟨[("div", [(⟨[]⟩ : ItemB)])], []⟩ "div").length
      ∧ (∀ r ∈ recs, r.map Prod.fst
          = ([("title", FieldSelector.simple "h3"),
              ("price", FieldSelector.simple "p.price")]).map Prod.fst)
      ∧ (∀ it ∈ SoupB.select ⟨[("div", [(⟨[]⟩ : ItemB)])], []⟩ "div",
          ∀ kv ∈ [("title", FieldSelector.simple "h3"),
              ("price", FieldSelector.simple "p.price")],
          ItemB.selectOne it kv.2.selStr = none →
          ∃ rec, extractItemB "https://x.com" it
              [("title", FieldSelector.simple "h3"),
               ("price", FieldSelector.simple "p.price")] = some rec
            ∧ (kv.1, Value.null) ∈ rec) :=
  C7_extract_record_shape "https://x.com"
    ⟨"div", [("title", FieldSelector.simple "h3"),
      ("price", FieldSelector.simple "p.price")]⟩
    ⟨[("div", [⟨[]⟩])], []⟩
    (by
      intro it hit kv hkv s a hfs e he ls
      rcases List.mem_cons.mp hkv with rfl | hkv2
      · simp at hfs
      · rcases List.mem_cons.mp hkv2 with rfl | hkv3
        · simp at hfs
        · simp at hkv3)

/-- `sqPowAux` computes the power (the fuel only caps the halving
recursion). -/
theorem sqPowAux_eq (b : Nat) : ∀ f n, n ≤ f → sqPowAux b f n = b ^ n := by
  intro f
  induction f with
  | zero =>
    intro n hn
    have h0 : n = 0 := by omega
    subst h0
    rfl
  | succ f ih =>
    intro n hn
    rw [sqPowAux]
    by_cases h0 : n = 0
    · simp [h0]
    · rw [if_neg h0]
      have hhalf : n / 2 ≤ f := by omega
      rw [ih (n / 2) hhalf]
      by_cases he : n % 2 = 0
      · rw [if_pos he, ← pow_add]
        congr 1
        omega
      · rw [if_neg he, ← pow_add, ← pow_succ]
        congr 1
        omega

/-- `sqPow b n = b ^ n`. -/
theorem sqPow_eq (b n : Nat) : sqPow b n = b ^ n :=
  sqPowAux_eq b n n (Nat.le_refl n)

